import Mathlib

/-!
Verification of `src/utils.py` (`plot_decision_boundary`): a shallow embedding
of the single utility function of this repository, which validates a feature
matrix / label vector pair, builds a sampling grid over the feature space,
queries an externally supplied prediction function on every grid cell, and
hands the result to a renderer.

Numbers are modelled as rationals (`ℚ`); numpy arrays of rank 1 and 2 as the
inductive `NPArr` (a rank-2 array carries its column count, as a numpy shape
does, so that an empty `0×2` array is representable); fallible numpy
reductions (`min`/`max` of an empty axis) and `np.linspace` with a negative
sample count return `Except`.  The rendering hand-off (matplotlib) is
modelled as the data handed to it: the `RenderData` structure.
-/

/-- A matrix of rationals: the payload of a rank-2 numpy array, and also the
    type of the single-row batch `[[x, y]]` passed to `predict`. -/
abbrev Mat := List (List ℚ)

/-- A numpy array of rank 1 or 2.  A rank-2 array records its column count
    (`shape[1]`) explicitly, exactly as a numpy shape does. -/
inductive NPArr where
  | r1 (data : List ℚ)
  | r2 (ncols : ℕ) (rows : List (List ℚ))
deriving DecidableEq, Repr

/-- `arr.shape`, as the list of dimension sizes. -/
def NPArr.shape : NPArr → List ℕ
  | .r1 d => [d.length]
  | .r2 c rows => [rows.length, c]

/-- All scalar elements of the array (used by the elementwise label check). -/
def NPArr.elems : NPArr → List ℚ
  | .r1 d => d
  | .r2 _ rows => rows.flatten

/-- Column `k` of the array, `X[:, k]` (empty for a rank-1 array; the source
    only extracts columns after the rank-2 check has passed). -/
def col (X : NPArr) (k : ℕ) : List ℚ :=
  match X with
  | .r1 _ => []
  | .r2 _ rows => rows.map (fun r => r.getD k 0)

/-- Error message of the features shape check (verbatim from the source). -/
def msgX : String := "X must be ann nx2 array of examples"

/-- Error message of the labels rank check (verbatim from the source). -/
def msgY : String := "Y must be an 1 dimensional array of classifications"

/-- Error message of the row-count check (verbatim from the source). -/
def msgRows : String := "X and Y must have the same number of rows"

/-- Error message of the label domain check (verbatim from the source). -/
def msgDomain : String := "All values of Y must be either 0 or 1"

/-- The numpy error raised by `min` of an empty array. -/
def msgEmptyMin : String :=
  "zero-size array to reduction operation minimum which has no identity"

/-- The numpy error raised by `max` of an empty array. -/
def msgEmptyMax : String :=
  "zero-size array to reduction operation maximum which has no identity"

/-- The numpy error raised by `np.linspace` with a negative sample count. -/
def msgLinspace : String := "Number of samples must be non-negative"

/-- The list of the four validation error messages of the function. -/
def validationMsgs : List String := [msgX, msgY, msgRows, msgDomain]

/-- The four sequential validation checks of `plot_decision_boundary`
    (source lines 17–24): the message of the first failed check, or `none`.
    The checks, in source order:
    `len(X.shape) != 2 or X.shape[1] != 2`; `len(Y.shape) != 1`;
    `X.shape[0] != Y.shape[0]`; `not np.all((Y == 0) | (Y == 1))`. -/
def validationError (X Y : NPArr) : Option String :=
  if X.shape.length ≠ 2 ∨ X.shape.getD 1 0 ≠ 2 then some msgX
  else if Y.shape.length ≠ 1 then some msgY
  else if X.shape.getD 0 0 ≠ Y.shape.getD 0 0 then some msgRows
  else if ¬ (Y.elems.all (fun y => y == 0 || y == 1)) then some msgDomain
  else none

/-- Binary minimum on `ℚ`, written out so that it evaluates by kernel
    reduction (it equals `min`, see `rmin_eq_min`). -/
def rmin (a b : ℚ) : ℚ := if a ≤ b then a else b

/-- Binary maximum on `ℚ`, written out so that it evaluates by kernel
    reduction (it equals `max`, see `rmax_eq_max`). -/
def rmax (a b : ℚ) : ℚ := if a ≤ b then b else a

/-- `arr.min()`: numpy's reduction, which raises on an empty array. -/
def amin : List ℚ → Except String ℚ
  | [] => .error msgEmptyMin
  | x :: xs => .ok (xs.foldl rmin x)

/-- `arr.max()`: numpy's reduction, which raises on an empty array. -/
def amax : List ℚ → Except String ℚ
  | [] => .error msgEmptyMax
  | x :: xs => .ok (xs.foldl rmax x)

/-- The list of samples produced by a successful `np.linspace a b num`:
    `start + i * (stop - start) / (num - 1)` for `i = 0, …, num - 1`.
    (In `ℚ`, division by zero is zero, so the `num = 1` case yields `[a]`
    exactly as numpy does.) -/
def linspaceList (a b : ℚ) (num : ℤ) : List ℚ :=
  (List.range num.toNat).map (fun (i : ℕ) => a + (i : ℚ) * (b - a) / ((num : ℚ) - 1))

/-- `np.linspace a b num`: `num` evenly spaced samples from `a` to `b`
    inclusive; numpy raises when `num` is negative. -/
def linspace (a b : ℚ) (num : ℤ) : Except String (List ℚ) :=
  if num < 0 then .error msgLinspace
  else .ok (linspaceList a b num)

/-- `y_hat[j, i] = v` on a list-of-rows matrix (out-of-range indices leave
    the matrix unchanged, as they are never used in range by the source). -/
def setEntry (m : Mat) (j i : ℕ) (v : ℚ) : Mat :=
  m.set j ((m.getD j []).set i v)

/-- Entry `(j, i)` of a matrix, defaulting to `0` (the `np.zeros` fill). -/
def entry (m : Mat) (j i : ℕ) : ℚ := (m.getD j []).getD i 0

/-- The single-row, two-column batch `[[xx[i], yy[j]]]` that the loop body
    passes to `predict` (source line 36). -/
def gridArg (xx yy : List ℚ) (i j : ℕ) : Mat :=
  [[xx.getD i 0, yy.getD j 0]]

/-- One iteration of the inner loop body (source line 36):
    `y_hat[j, i] = predict([[xx[i], yy[j]]])`, with the `predict` invocation
    recorded in the second component. -/
def gridStep (predict : Mat → ℚ) (xx yy : List ℚ) (i : ℕ)
    (s : Mat × List Mat) (j : ℕ) : Mat × List Mat :=
  (setEntry s.1 j i (predict (gridArg xx yy i j)), s.2 ++ [gridArg xx yy i j])

/-- The grid-filling double loop of the source (lines 33–36):
    `y_hat = np.zeros((n, n)); for i in range(n): for j in range(n):
    y_hat[j, i] = predict([[xx[i], yy[j]]])`.
    The second component records, in evaluation order, the argument of every
    invocation of `predict`. -/
def fillGrid (predict : Mat → ℚ) (xx yy : List ℚ) (n : ℕ) : Mat × List Mat :=
  (List.range n).foldl
    (fun s i => (List.range n).foldl (gridStep predict xx yy i) s)
    (List.replicate n (List.replicate n 0), [])

/-- The data handed to the rendering collaborator by a successful call,
    together with the recorded `predict` invocations. -/
structure RenderData where
  xx : List ℚ
  yy : List ℚ
  y_hat : Mat
  calls : List Mat
  scatterX : List ℚ
  scatterY : List ℚ
  scatterC : List ℚ
  title : String
deriving DecidableEq, Repr

/-- Shallow embedding of `plot_decision_boundary(X, Y, predict, title,
    n_cells)` (source lines 8–43): the four validation checks in order, then
    the padded bounds `min - 1` / `max + 1` of each feature column (line 26
    computes column 0's min then max, line 27 column 1's), the two `linspace`
    grids, the grid-filling loop, and the hand-off to the renderer
    (`contourf(xx, yy, y_hat)`, `scatter(X[:,0], X[:,1], c=Y)`, `title`). -/
def plot_decision_boundary (X Y : NPArr) (predict : Mat → ℚ)
    (title : String) (n_cells : ℤ) : Except String RenderData :=
  match validationError X Y with
  | some e => .error e
  | none => do
      let mn0 ← amin (col X 0)
      let mx0 ← amax (col X 0)
      let mn1 ← amin (col X 1)
      let mx1 ← amax (col X 1)
      let x_min := mn0 - 1
      let x_max := mx0 + 1
      let y_min := mn1 - 1
      let y_max := mx1 + 1
      let xx ← linspace x_min x_max n_cells
      let yy ← linspace y_min y_max n_cells
      let g := fillGrid predict xx yy n_cells.toNat
      .ok ⟨xx, yy, g.1, g.2, col X 0, col X 1, Y.elems, title⟩

deriving instance DecidableEq for Except

/-! ## Basic facts about `setEntry`, `entry` and the grid-filling loop -/

/-- Shape invariant of the `n × n` matrix threaded through the loop. -/
def WFmat (m : Mat) (n : ℕ) : Prop :=
  m.length = n ∧ ∀ j, (m.getD j []).length = if j < n then n else 0

theorem getD_replicate {α : Type} (n : ℕ) (a d : α) (j : ℕ) :
    (List.replicate n a).getD j d = if j < n then a else d := by
  rw [List.getD_eq_getElem?_getD, List.getElem?_replicate]
  split <;> rfl

theorem WFmat_replicate (n : ℕ) :
    WFmat (List.replicate n (List.replicate n (0 : ℚ))) n := by
  refine ⟨List.length_replicate .., fun j => ?_⟩
  rw [getD_replicate]
  split <;> simp

theorem entry_replicate (n : ℕ) (j i : ℕ) :
    entry (List.replicate n (List.replicate n (0 : ℚ))) j i = 0 := by
  unfold entry
  rw [getD_replicate]
  split
  · rw [getD_replicate]
    split <;> rfl
  · rfl

theorem length_setEntry (m : Mat) (j i : ℕ) (v : ℚ) :
    (setEntry m j i v).length = m.length := by
  simp [setEntry]

theorem getD_setEntry_ne (m : Mat) {j j' : ℕ} (i : ℕ) (v : ℚ) (h : j' ≠ j) :
    (setEntry m j i v).getD j' [] = m.getD j' [] := by
  unfold setEntry
  rw [List.getD_eq_getElem?_getD, List.getElem?_set_ne (fun hh => h hh.symm),
    List.getD_eq_getElem?_getD]

theorem getD_setEntry_self (m : Mat) {j : ℕ} (i : ℕ) (v : ℚ) (h : j < m.length) :
    (setEntry m j i v).getD j [] = (m.getD j []).set i v := by
  unfold setEntry
  rw [List.getD_eq_getElem?_getD, List.getElem?_set_eq_of_lt _ h]
  rfl

theorem WFmat_setEntry {m : Mat} {n : ℕ} (h : WFmat m n) (j i : ℕ) (v : ℚ) :
    WFmat (setEntry m j i v) n := by
  obtain ⟨hlen, hrow⟩ := h
  refine ⟨by rw [length_setEntry, hlen], fun j' => ?_⟩
  by_cases hj : j' = j
  · subst hj
    by_cases hjm : j' < m.length
    · rw [getD_setEntry_self m i v hjm, List.length_set]
      exact hrow j'
    · unfold setEntry
      rw [List.getD_eq_getElem?_getD, List.getElem?_set_self', List.getElem?_eq_none (by omega)]
      have hge : ¬ j' < n := by omega
      simp [hge]
  · rw [getD_setEntry_ne m i v hj]
    exact hrow j'

theorem entry_setEntry_self {m : Mat} {n : ℕ} (h : WFmat m n)
    {j i : ℕ} (hj : j < n) (hi : i < n) (v : ℚ) :
    entry (setEntry m j i v) j i = v := by
  obtain ⟨hlen, hrow⟩ := h
  unfold entry
  rw [getD_setEntry_self m i v (by omega)]
  rw [List.getD_eq_getElem?_getD,
    List.getElem?_set_eq_of_lt _ (by rw [hrow j, if_pos hj]; exact hi)]
  rfl

theorem entry_setEntry_ne (m : Mat) {j i j' i' : ℕ} (v : ℚ)
    (h : j' ≠ j ∨ i' ≠ i) :
    entry (setEntry m j i v) j' i' = entry m j' i' := by
  unfold entry
  by_cases hj : j' = j
  · subst hj
    rcases h with h | h
    · exact absurd rfl h
    · by_cases hjm : j' < m.length
      · rw [getD_setEntry_self m i v hjm, List.getD_eq_getElem?_getD,
          List.getElem?_set_ne (fun hh => h hh.symm)]
        exact (List.getD_eq_getElem?_getD _ _ _).symm
      · unfold setEntry
        rw [List.set_eq_of_length_le (by omega)]
  · rw [getD_setEntry_ne m i v hj]

theorem innerFold_snd (p : Mat → ℚ) (xx yy : List ℚ) (i k : ℕ)
    (s : Mat × List Mat) :
    ((List.range k).foldl (gridStep p xx yy i) s).2 =
      s.2 ++ (List.range k).map (gridArg xx yy i) := by
  induction k with
  | zero => simp
  | succ k ih =>
    rw [List.range_succ, List.foldl_append, List.map_append, List.foldl_cons,
      List.foldl_nil]
    show (gridStep p xx yy i _ k).2 = _
    rw [gridStep, ih, List.append_assoc]
    rfl

theorem innerFold_WF (p : Mat → ℚ) (xx yy : List ℚ) (n i k : ℕ)
    (s : Mat × List Mat) (h : WFmat s.1 n) :
    WFmat ((List.range k).foldl (gridStep p xx yy i) s).1 n := by
  induction k with
  | zero => simpa using h
  | succ k ih =>
    rw [List.range_succ, List.foldl_append, List.foldl_cons, List.foldl_nil]
    exact WFmat_setEntry ih _ _ _

theorem innerFold_entry (p : Mat → ℚ) (xx yy : List ℚ) (n i : ℕ)
    (hi : i < n) (k : ℕ) (hk : k ≤ n) (s : Mat × List Mat) (h : WFmat s.1 n)
    (j' i' : ℕ) :
    entry ((List.range k).foldl (gridStep p xx yy i) s).1 j' i' =
      if j' < k ∧ i' = i then p (gridArg xx yy i j') else entry s.1 j' i' := by
  induction k with
  | zero => simp
  | succ k ih =>
    rw [List.range_succ, List.foldl_append, List.foldl_cons, List.foldl_nil]
    have hWF := innerFold_WF p xx yy n i k s h
    show entry (setEntry _ k i _) j' i' = _
    by_cases hji : j' = k ∧ i' = i
    · obtain ⟨hj, hii⟩ := hji
      subst hj; subst hii
      rw [entry_setEntry_self hWF (by omega) hi]
      rw [if_pos ⟨by omega, rfl⟩]
    · have hne : j' ≠ k ∨ i' ≠ i := by tauto
      rw [entry_setEntry_ne _ _ hne, ih (by omega)]
      by_cases hcond : j' < k ∧ i' = i
      · rw [if_pos hcond, if_pos ⟨by omega, hcond.2⟩]
      · rw [if_neg hcond, if_neg (by omega)]

theorem outerFold_snd (p : Mat → ℚ) (xx yy : List ℚ) (n : ℕ) (K : ℕ)
    (s : Mat × List Mat) :
    ((List.range K).foldl
        (fun s i => (List.range n).foldl (gridStep p xx yy i) s) s).2 =
      s.2 ++ (List.range K).flatMap (fun i => (List.range n).map (gridArg xx yy i)) := by
  induction K with
  | zero => simp
  | succ K ih =>
    rw [List.range_succ, List.foldl_append, List.foldl_cons, List.foldl_nil,
      List.flatMap_append, innerFold_snd, ih, List.append_assoc]
    simp

theorem outerFold_WF (p : Mat → ℚ) (xx yy : List ℚ) (n K : ℕ)
    (s : Mat × List Mat) (h : WFmat s.1 n) :
    WFmat ((List.range K).foldl
        (fun s i => (List.range n).foldl (gridStep p xx yy i) s) s).1 n := by
  induction K with
  | zero => simpa using h
  | succ K ih =>
    rw [List.range_succ, List.foldl_append, List.foldl_cons, List.foldl_nil]
    exact innerFold_WF p xx yy n K n _ ih

theorem outerFold_entry (p : Mat → ℚ) (xx yy : List ℚ) (n : ℕ) (K : ℕ)
    (hK : K ≤ n) (s : Mat × List Mat) (h : WFmat s.1 n) (j' i' : ℕ) :
    entry ((List.range K).foldl
        (fun s i => (List.range n).foldl (gridStep p xx yy i) s) s).1 j' i' =
      if j' < n ∧ i' < K then p (gridArg xx yy i' j') else entry s.1 j' i' := by
  induction K with
  | zero => simp
  | succ K ih =>
    rw [List.range_succ, List.foldl_append, List.foldl_cons, List.foldl_nil]
    have hWF := outerFold_WF p xx yy n K s h
    rw [innerFold_entry p xx yy n K (by omega) n le_rfl _ hWF j' i',
      ih (by omega)]
    by_cases h1 : j' < n ∧ i' = K
    · rw [if_pos h1, if_pos ⟨h1.1, by omega⟩, h1.2]
    · by_cases h2 : j' < n ∧ i' < K
      · rw [if_neg h1, if_pos h2, if_pos ⟨h2.1, by omega⟩]
      · rw [if_neg h1, if_neg h2, if_neg (by omega)]

theorem fillGrid_entry (p : Mat → ℚ) (xx yy : List ℚ) (n : ℕ) (j i : ℕ) :
    entry (fillGrid p xx yy n).1 j i =
      if j < n ∧ i < n then p (gridArg xx yy i j) else 0 := by
  unfold fillGrid
  rw [outerFold_entry p xx yy n n le_rfl _ (WFmat_replicate n) j i,
    entry_replicate]

theorem fillGrid_calls (p : Mat → ℚ) (xx yy : List ℚ) (n : ℕ) :
    (fillGrid p xx yy n).2 =
      (List.range n).flatMap (fun i => (List.range n).map (gridArg xx yy i)) := by
  unfold fillGrid
  rw [outerFold_snd]
  rfl

theorem fillGrid_calls_length (p : Mat → ℚ) (xx yy : List ℚ) (n : ℕ) :
    (fillGrid p xx yy n).2.length = n * n := by
  rw [fillGrid_calls, List.length_flatMap]
  have h : List.length ∘ (fun i => (List.range n).map (gridArg xx yy i)) =
      fun _ => n := by
    funext i
    simp
  rw [h, List.map_const', List.sum_replicate, List.length_range, smul_eq_mul]

/-! ## Facts about `linspaceList`, `amin` and `amax` -/

theorem linspaceList_length (a b : ℚ) (num : ℤ) :
    (linspaceList a b num).length = num.toNat := by
  simp [linspaceList]

theorem linspaceList_getElem (a b : ℚ) (num : ℤ) (i : ℕ) (h : i < num.toNat) :
    (linspaceList a b num)[i]? = some (a + i * (b - a) / ((num : ℚ) - 1)) := by
  unfold linspaceList
  rw [List.getElem?_map, List.getElem?_range h]
  rfl

theorem linspaceList_pairwise (a b : ℚ) (num : ℤ) (hab : a < b) (hn : 2 ≤ num) :
    (linspaceList a b num).Pairwise (· < ·) := by
  unfold linspaceList
  rw [List.pairwise_map]
  refine (List.pairwise_lt_range num.toNat).imp ?_
  intro i j hij
  have hden : (0 : ℚ) < (num : ℚ) - 1 := by
    have : (2 : ℚ) ≤ (num : ℚ) := by exact_mod_cast hn
    linarith
  have hstep : (0 : ℚ) < (b - a) / ((num : ℚ) - 1) := by
    apply div_pos (by linarith) hden
  have hcast : (i : ℚ) < (j : ℚ) := by exact_mod_cast hij
  have := mul_lt_mul_of_pos_right hcast hstep
  rw [mul_div_assoc, mul_div_assoc]
  linarith

theorem linspaceList_head (a b : ℚ) (num : ℤ) (hn : 0 < num) :
    (linspaceList a b num).head? = some a := by
  rw [List.head?_eq_getElem?, linspaceList_getElem a b num 0 (by omega)]
  norm_num

theorem linspaceList_getLast (a b : ℚ) (num : ℤ) (hn : 2 ≤ num) :
    (linspaceList a b num).getLast? = some b := by
  have h2 : ((num.toNat : ℕ) : ℚ) = (num : ℚ) := by
    rw [← Int.cast_natCast, Int.toNat_of_nonneg (by omega)]
  have hcast : ((num.toNat - 1 : ℕ) : ℚ) = (num : ℚ) - 1 := by
    rw [Nat.cast_sub (by omega), h2]
    norm_num
  have hden : ((num : ℚ) - 1) ≠ 0 := by
    have h2le : (2 : ℚ) ≤ (num : ℚ) := by exact_mod_cast hn
    linarith
  rw [List.getLast?_eq_getElem?, linspaceList_length,
    linspaceList_getElem a b num (num.toNat - 1) (by omega), hcast,
    mul_div_cancel_left₀ _ hden]
  have hb : a + (b - a) = b := by ring
  rw [hb]

theorem rmin_eq_min (a b : ℚ) : rmin a b = min a b := (min_def a b).symm

theorem rmax_eq_max (a b : ℚ) : rmax a b = max a b := (max_def a b).symm

theorem foldl_rmin_le_init (xs : List ℚ) (x : ℚ) : xs.foldl rmin x ≤ x := by
  induction xs generalizing x with
  | nil => exact le_refl x
  | cons a t ih =>
    refine le_trans (ih (rmin x a)) ?_
    rw [rmin_eq_min]
    exact min_le_left x a

theorem init_le_foldl_rmax (xs : List ℚ) (x : ℚ) : x ≤ xs.foldl rmax x := by
  induction xs generalizing x with
  | nil => exact le_refl x
  | cons a t ih =>
    refine le_trans ?_ (ih (rmax x a))
    rw [rmax_eq_max]
    exact le_max_left x a

theorem amin_le_amax (l : List ℚ) (mn mx : ℚ)
    (hmin : amin l = .ok mn) (hmax : amax l = .ok mx) : mn ≤ mx := by
  cases l with
  | nil => simp [amin] at hmin
  | cons x xs =>
    simp only [amin, Except.ok.injEq] at hmin
    simp only [amax, Except.ok.injEq] at hmax
    rw [← hmin, ← hmax]
    exact le_trans (foldl_rmin_le_init xs x) (init_le_foldl_rmax xs x)

theorem amin_ok_of_ne_nil (l : List ℚ) (h : l ≠ []) : ∃ m, amin l = .ok m := by
  cases l with
  | nil => exact absurd rfl h
  | cons x xs => exact ⟨xs.foldl rmin x, rfl⟩

theorem amax_ok_of_ne_nil (l : List ℚ) (h : l ≠ []) : ∃ m, amax l = .ok m := by
  cases l with
  | nil => exact absurd rfl h
  | cons x xs => exact ⟨xs.foldl rmax x, rfl⟩

theorem linspaceList_mem_bounds (a b : ℚ) (num : ℤ) (hab : a ≤ b)
    (hn : 2 ≤ num) : ∀ v ∈ linspaceList a b num, a ≤ v ∧ v ≤ b := by
  intro v hv
  rw [linspaceList, List.mem_map] at hv
  obtain ⟨i, hi, rfl⟩ := hv
  rw [List.mem_range] at hi
  have h2 : ((num.toNat : ℕ) : ℚ) = (num : ℚ) := by
    rw [← Int.cast_natCast, Int.toNat_of_nonneg (by omega)]
  have hiq : (i : ℚ) ≤ (num : ℚ) - 1 := by
    have h1 : (i : ℚ) ≤ ((num.toNat - 1 : ℕ) : ℚ) := by
      exact_mod_cast Nat.le_sub_one_of_lt hi
    rw [Nat.cast_sub (by omega), h2] at h1
    simpa using h1
  have hden : (0 : ℚ) < (num : ℚ) - 1 := by
    have h2le : (2 : ℚ) ≤ (num : ℚ) := by exact_mod_cast hn
    linarith
  constructor
  · have : 0 ≤ (i : ℚ) * (b - a) / ((num : ℚ) - 1) :=
      div_nonneg (mul_nonneg (Nat.cast_nonneg i) (by linarith)) (by linarith)
    linarith
  · have hmul : (i : ℚ) * (b - a) ≤ ((num : ℚ) - 1) * (b - a) :=
      mul_le_mul_of_nonneg_right hiq (by linarith)
    have hdiv : (i : ℚ) * (b - a) / ((num : ℚ) - 1) ≤
        ((num : ℚ) - 1) * (b - a) / ((num : ℚ) - 1) :=
      (div_le_div_iff_of_pos_right hden).mpr hmul
    rw [mul_div_cancel_left₀ _ (ne_of_gt hden)] at hdiv
    linarith

/-! ## Characterizations of `plot_decision_boundary` -/

theorem pdb_error_of_invalid {X Y : NPArr} {e : String}
    (hv : validationError X Y = some e) (p : Mat → ℚ) (t : String) (n : ℤ) :
    plot_decision_boundary X Y p t n = .error e := by
  unfold plot_decision_boundary
  rw [hv]

theorem pdb_eq_of_valid {X Y : NPArr} (hv : validationError X Y = none)
    {mn0 mx0 mn1 mx1 : ℚ}
    (h0 : amin (col X 0) = .ok mn0) (h1 : amax (col X 0) = .ok mx0)
    (h2 : amin (col X 1) = .ok mn1) (h3 : amax (col X 1) = .ok mx1)
    (p : Mat → ℚ) (t : String) (n : ℤ) (hn : 0 ≤ n) :
    plot_decision_boundary X Y p t n =
      .ok ⟨linspaceList (mn0 - 1) (mx0 + 1) n,
           linspaceList (mn1 - 1) (mx1 + 1) n,
           (fillGrid p (linspaceList (mn0 - 1) (mx0 + 1) n)
              (linspaceList (mn1 - 1) (mx1 + 1) n) n.toNat).1,
           (fillGrid p (linspaceList (mn0 - 1) (mx0 + 1) n)
              (linspaceList (mn1 - 1) (mx1 + 1) n) n.toNat).2,
           col X 0, col X 1, Y.elems, t⟩ := by
  simp only [plot_decision_boundary, hv, h0, h1, h2, h3, bind, Except.bind,
    linspace, if_neg (not_lt.mpr hn)]


theorem pdb_ok_inv {X Y : NPArr} {p : Mat → ℚ} {t : String} {n : ℤ}
    {r : RenderData} (h : plot_decision_boundary X Y p t n = .ok r) :
    validationError X Y = none ∧ 0 ≤ n ∧
    ∃ mn0 mx0 mn1 mx1, amin (col X 0) = .ok mn0 ∧ amax (col X 0) = .ok mx0 ∧
      amin (col X 1) = .ok mn1 ∧ amax (col X 1) = .ok mx1 ∧
      r = ⟨linspaceList (mn0 - 1) (mx0 + 1) n,
           linspaceList (mn1 - 1) (mx1 + 1) n,
           (fillGrid p (linspaceList (mn0 - 1) (mx0 + 1) n)
              (linspaceList (mn1 - 1) (mx1 + 1) n) n.toNat).1,
           (fillGrid p (linspaceList (mn0 - 1) (mx0 + 1) n)
              (linspaceList (mn1 - 1) (mx1 + 1) n) n.toNat).2,
           col X 0, col X 1, Y.elems, t⟩ := by
  unfold plot_decision_boundary at h
  cases hv : validationError X Y with
  | some e => rw [hv] at h; cases h
  | none =>
  rw [hv] at h
  cases h0 : amin (col X 0) with
  | error e =>
    rw [h0] at h
    simp only [bind, Except.bind] at h
    exact Except.noConfusion h
  | ok mn0 =>
  rw [h0] at h
  cases h1 : amax (col X 0) with
  | error e =>
    rw [h1] at h
    simp only [bind, Except.bind] at h
    exact Except.noConfusion h
  | ok mx0 =>
  rw [h1] at h
  cases h2 : amin (col X 1) with
  | error e =>
    rw [h2] at h
    simp only [bind, Except.bind] at h
    exact Except.noConfusion h
  | ok mn1 =>
  rw [h2] at h
  cases h3 : amax (col X 1) with
  | error e =>
    rw [h3] at h
    simp only [bind, Except.bind] at h
    exact Except.noConfusion h
  | ok mx1 =>
  rw [h3] at h
  by_cases hn : n < 0
  · simp only [bind, Except.bind, linspace, if_pos hn] at h
    exact Except.noConfusion h
  · simp only [bind, Except.bind, linspace, if_neg hn] at h
    refine ⟨rfl, not_lt.mp hn, mn0, mx0, mn1, mx1, rfl, rfl, rfl, rfl, ?_⟩
    exact (Except.ok.inj h).symm

theorem pdb_error_of_valid {X Y : NPArr} {p : Mat → ℚ} {t : String} {n : ℤ}
    {e : String} (hv : validationError X Y = none)
    (h : plot_decision_boundary X Y p t n = .error e) :
    e = msgEmptyMin ∨ e = msgEmptyMax ∨ e = msgLinspace := by
  unfold plot_decision_boundary at h
  rw [hv] at h
  cases h0 : amin (col X 0) with
  | error e0 =>
    rw [h0] at h
    simp only [bind, Except.bind] at h
    have he : e = e0 := (Except.error.inj h).symm
    cases hc : col X 0 with
    | nil =>
      rw [hc] at h0
      simp only [amin, Except.error.injEq] at h0
      exact Or.inl (he.trans h0.symm)
    | cons x xs =>
      rw [hc] at h0
      exact absurd h0 (by simp [amin])
  | ok mn0 =>
  rw [h0] at h
  cases h1 : amax (col X 0) with
  | error e1 =>
    cases hc : col X 0 with
    | nil =>
      rw [hc] at h0
      exact absurd h0 (by simp [amin])
    | cons x xs =>
      rw [hc] at h1
      exact absurd h1 (by simp [amax])
  | ok mx0 =>
  rw [h1] at h
  cases h2 : amin (col X 1) with
  | error e2 =>
    rw [h2] at h
    simp only [bind, Except.bind] at h
    have he : e = e2 := (Except.error.inj h).symm
    cases hc : col X 1 with
    | nil =>
      rw [hc] at h2
      simp only [amin, Except.error.injEq] at h2
      exact Or.inl (he.trans h2.symm)
    | cons x xs =>
      rw [hc] at h2
      exact absurd h2 (by simp [amin])
  | ok mn1 =>
  rw [h2] at h
  cases h3 : amax (col X 1) with
  | error e3 =>
    cases hc : col X 1 with
    | nil =>
      rw [hc] at h2
      exact absurd h2 (by simp [amin])
    | cons x xs =>
      rw [hc] at h3
      exact absurd h3 (by simp [amax])
  | ok mx1 =>
  rw [h3] at h
  by_cases hn : n < 0
  · simp only [bind, Except.bind, linspace, if_pos hn] at h
    exact Or.inr (Or.inr (Except.error.inj h).symm)
  · simp only [bind, Except.bind, linspace, if_neg hn] at h
    exact Except.noConfusion h

theorem validationError_none_iff (X Y : NPArr) :
    validationError X Y = none ↔
      ∃ rows d, X = .r2 2 rows ∧ Y = .r1 d ∧ rows.length = d.length ∧
        ∀ v ∈ d, v = 0 ∨ v = 1 := by
  constructor
  · intro h
    unfold validationError at h
    split at h
    · exact Option.noConfusion h
    split at h
    · exact Option.noConfusion h
    split at h
    · exact Option.noConfusion h
    split at h
    · exact Option.noConfusion h
    rename_i hc1 hc2 hc3 hc4
    rw [not_or, not_not, not_not] at hc1
    obtain ⟨h1a, h1b⟩ := hc1
    rw [not_not] at hc2 hc3
    rw [not_not] at hc4
    cases X with
    | r1 d0 => simp [NPArr.shape] at h1a
    | r2 c rows =>
    cases Y with
    | r2 c2 rows2 => simp [NPArr.shape] at hc2
    | r1 d =>
    refine ⟨rows, d, ?_, rfl, ?_, ?_⟩
    · simp [NPArr.shape] at h1b
      rw [h1b]
    · simpa [NPArr.shape] using hc3
    · intro v hv
      rw [List.all_eq_true] at hc4
      have := hc4 v (by simpa [NPArr.elems] using hv)
      simpa using this
  · rintro ⟨rows, d, rfl, rfl, hlen, hdom⟩
    unfold validationError
    rw [if_neg (by simp [NPArr.shape]), if_neg (by simp [NPArr.shape]),
      if_neg (by simp [NPArr.shape, hlen]), if_neg ?_]
    rw [not_not, List.all_eq_true]
    intro v hv
    rcases hdom v (by simpa [NPArr.elems] using hv) with h | h <;> simp [h]

theorem col_ne_nil (c : ℕ) (rows : List (List ℚ)) (k : ℕ) (h : rows ≠ []) :
    col (.r2 c rows) k ≠ [] := by
  simp [col, h]

/-! ## The claims -/

/-- C1: a successful call with grid resolution `n` records exactly `n²`
invocations of `predict`, one per pair `(i, j)` drawn from the cross product
of the x- and y-coordinate sequences, each on the single-row two-column
batch `[[xx[i], yy[j]]]`; and the grid entry at row `j`, column `i` equals
the result of `predict` on `[[xx[i], yy[j]]]` (rows index the y sequence,
columns the x sequence). -/
theorem grid_predict_correspondence (X Y : NPArr) (p : Mat → ℚ) (t : String)
    (n : ℤ) (r : RenderData) (h : plot_decision_boundary X Y p t n = .ok r) :
    r.calls.length = n.toNat * n.toNat ∧
    r.calls = (List.range n.toNat).flatMap
      (fun i => (List.range n.toNat).map
        (fun j => [[r.xx.getD i 0, r.yy.getD j 0]])) ∧
    ∀ j i, j < n.toNat → i < n.toNat →
      entry r.y_hat j i = p [[r.xx.getD i 0, r.yy.getD j 0]] := by
  obtain ⟨hv, hn, mn0, mx0, mn1, mx1, h0, h1, h2, h3, hr⟩ := pdb_ok_inv h
  subst hr
  dsimp only
  refine ⟨fillGrid_calls_length _ _ _ _, ?_, ?_⟩
  · rw [fillGrid_calls]
    rfl
  · intro j i hj hi
    rw [fillGrid_entry, if_pos ⟨hj, hi⟩]
    rfl

unseal Rat.add Rat.mul Rat.inv Rat.sub in
theorem grid_predict_correspondence_witness :
    (plot_decision_boundary (.r2 2 [[0,0]]) (.r1 [0]) (fun _ => 5) "t" 1 =
      .ok ⟨[-1], [-1], [[5]], [[[-1, -1]]], [0], [0], [0], "t"⟩) ∧
    (RenderData.mk [-1] [-1] [[5]] [[[-1, -1]]] [0] [0] [0] "t").calls.length =
      (1 : ℤ).toNat * (1 : ℤ).toNat ∧
    entry (RenderData.mk [-1] [-1] [[5]] [[[-1, -1]]] [0] [0] [0] "t").y_hat 0 0 =
      (fun (_ : Mat) => (5 : ℚ))
        [[(RenderData.mk [-1] [-1] [[5]] [[[-1, -1]]] [0] [0] [0] "t").xx.getD 0 0,
          (RenderData.mk [-1] [-1] [[5]] [[[-1, -1]]] [0] [0] [0] "t").yy.getD 0 0]] := by
  have hpdb : plot_decision_boundary (.r2 2 [[0,0]]) (.r1 [0]) (fun _ => 5) "t" 1 =
      .ok ⟨[-1], [-1], [[5]], [[[-1, -1]]], [0], [0], [0], "t"⟩ := by decide
  have hc := grid_predict_correspondence (.r2 2 [[0,0]]) (.r1 [0]) (fun _ => 5)
    "t" 1 ⟨[-1], [-1], [[5]], [[[-1, -1]]], [0], [0], [0], "t"⟩ hpdb
  exact ⟨hpdb, hc.1, hc.2.2 0 0 (by decide) (by decide)⟩

/-- C2: the validation stage accepts exactly the inputs with a rank-2
two-column feature matrix, a rank-1 label vector of matching length, and
labels drawn from {0, 1}; the four violation classes carry four pairwise
distinct error messages; and an input with none of the four violations never
produces a validation error. -/
theorem validation_four_classes (X Y : NPArr) (p : Mat → ℚ) (t : String)
    (n : ℤ) :
    (validationError X Y = none ↔
      ∃ rows d, X = .r2 2 rows ∧ Y = .r1 d ∧ rows.length = d.length ∧
        ∀ v ∈ d, v = 0 ∨ v = 1) ∧
    validationMsgs.Pairwise (· ≠ ·) ∧
    (validationError X Y = none →
      ∀ e, plot_decision_boundary X Y p t n = .error e →
        e ∉ validationMsgs) := by
  refine ⟨validationError_none_iff X Y, by decide, ?_⟩
  intro hv e he
  rcases pdb_error_of_valid hv he with h | h | h <;> subst h <;> decide

theorem validation_four_classes_witness : msgEmptyMin ∉ validationMsgs :=
  (validation_four_classes (.r2 2 []) (.r1 []) (fun _ => 0) "t" 50).2.2
    (by decide) msgEmptyMin (by decide)

/-- C5: when validation fails, the call aborts with that validation error:
no render data is produced, and the outcome does not depend on the supplied
prediction function or on the grid resolution (so `predict` is never
invoked and no grid is built). -/
theorem invalid_input_aborts (X Y : NPArr) (e : String)
    (h : validationError X Y = some e) (p : Mat → ℚ) (t : String) (n : ℤ) :
    plot_decision_boundary X Y p t n = .error e ∧
    ∀ (q : Mat → ℚ) (m : ℤ), plot_decision_boundary X Y q t m =
      plot_decision_boundary X Y p t n := by
  refine ⟨pdb_error_of_invalid h p t n, fun q m => ?_⟩
  rw [pdb_error_of_invalid h p t n, pdb_error_of_invalid h q t m]

theorem invalid_input_aborts_witness :
    plot_decision_boundary (.r1 [0]) (.r1 [0]) (fun _ => 0) "t" 50 =
      .error msgX :=
  (invalid_input_aborts (.r1 [0]) (.r1 [0]) msgX (by decide)
    (fun _ => 0) "t" 50).1

/-- C9: with several constraints violated at once, the single error raised
is the first violated check in the fixed order: features shape, then labels
rank, then row-count match, then label domain. -/
theorem validation_precedence (X Y : NPArr) (p : Mat → ℚ) (t : String)
    (n : ℤ) :
    ((X.shape.length ≠ 2 ∨ X.shape.getD 1 0 ≠ 2) →
      plot_decision_boundary X Y p t n = .error msgX) ∧
    (X.shape.length = 2 → X.shape.getD 1 0 = 2 → Y.shape.length ≠ 1 →
      plot_decision_boundary X Y p t n = .error msgY) ∧
    (X.shape.length = 2 → X.shape.getD 1 0 = 2 → Y.shape.length = 1 →
      X.shape.getD 0 0 ≠ Y.shape.getD 0 0 →
      plot_decision_boundary X Y p t n = .error msgRows) ∧
    (X.shape.length = 2 → X.shape.getD 1 0 = 2 → Y.shape.length = 1 →
      X.shape.getD 0 0 = Y.shape.getD 0 0 →
      ¬ (∀ v ∈ Y.elems, v = 0 ∨ v = 1) →
      plot_decision_boundary X Y p t n = .error msgDomain) := by
  refine ⟨fun hc => pdb_error_of_invalid ?_ p t n,
    fun ha hb hc => pdb_error_of_invalid ?_ p t n,
    fun ha hb hc hd => pdb_error_of_invalid ?_ p t n,
    fun ha hb hc hd he => pdb_error_of_invalid ?_ p t n⟩
  · unfold validationError
    rw [if_pos hc]
  · unfold validationError
    rw [if_neg (by rw [not_or, not_ne_iff, not_ne_iff]; exact ⟨ha, hb⟩),
      if_pos hc]
  · unfold validationError
    rw [if_neg (by rw [not_or, not_ne_iff, not_ne_iff]; exact ⟨ha, hb⟩),
      if_neg (not_ne_iff.mpr hc), if_pos hd]
  · unfold validationError
    rw [if_neg (by rw [not_or, not_ne_iff, not_ne_iff]; exact ⟨ha, hb⟩),
      if_neg (not_ne_iff.mpr hc), if_neg (not_ne_iff.mpr hd), if_pos ?_]
    intro hall
    apply he
    intro v hv
    have := List.all_eq_true.mp hall v hv
    simpa using this

theorem validation_precedence_witness :
    plot_decision_boundary (.r1 [5]) (.r1 [5, 7]) (fun _ => 0) "t" 2 =
      .error msgX ∧
    plot_decision_boundary (.r2 2 [[0, 0]]) (.r1 [5]) (fun _ => 0) "t" 2 =
      .error msgDomain :=
  ⟨(validation_precedence (.r1 [5]) (.r1 [5, 7]) (fun _ => 0) "t" 2).1
      (by decide),
   (validation_precedence (.r2 2 [[0, 0]]) (.r1 [5]) (fun _ => 0) "t" 2).2.2.2
      (by decide) (by decide) (by decide) (by decide) (by decide)⟩

unseal Rat.add Rat.mul Rat.inv Rat.sub in
/-- C3 (counterexample): with the positive grid resolution 1 the coordinate
sequence is the singleton `[min − 1]`: it has length 1 but does not contain
the upper endpoint `max + 1`, so for resolution 1 the sequences do not span
the padded interval including both endpoints. -/
theorem grid_axes_cex :
    plot_decision_boundary (.r2 2 [[0, 0]]) (.r1 [0]) (fun _ => 0) "t" 1 =
      .ok ⟨[-1], [-1], [[0]], [[[-1, -1]]], [0], [0], [0], "t"⟩ ∧
    amax (col (.r2 2 [[0, 0]]) 0) = .ok 0 ∧
    ((0 : ℚ) + 1) ∉ ([-1] : List ℚ) ∧ ([-1] : List ℚ).length = 1 := by
  decide

/-- C3 (amended): for every successful call with grid resolution at least 2,
each of the two coordinate sequences is strictly increasing, has length
exactly the resolution, begins at (column minimum − 1), ends at
(column maximum + 1), and stays inside that closed interval. -/
theorem grid_axes_spec (X Y : NPArr) (p : Mat → ℚ) (t : String) (n : ℤ)
    (r : RenderData) (h : plot_decision_boundary X Y p t n = .ok r)
    (hn : 2 ≤ n) :
    (r.xx.length = n.toNat ∧ r.xx.Pairwise (· < ·) ∧
      ∃ mn mx, amin (col X 0) = .ok mn ∧ amax (col X 0) = .ok mx ∧
        r.xx.head? = some (mn - 1) ∧ r.xx.getLast? = some (mx + 1) ∧
        ∀ v ∈ r.xx, mn - 1 ≤ v ∧ v ≤ mx + 1) ∧
    (r.yy.length = n.toNat ∧ r.yy.Pairwise (· < ·) ∧
      ∃ mn mx, amin (col X 1) = .ok mn ∧ amax (col X 1) = .ok mx ∧
        r.yy.head? = some (mn - 1) ∧ r.yy.getLast? = some (mx + 1) ∧
        ∀ v ∈ r.yy, mn - 1 ≤ v ∧ v ≤ mx + 1) := by
  obtain ⟨hv, hnn, mn0, mx0, mn1, mx1, h0, h1, h2, h3, hr⟩ := pdb_ok_inv h
  subst hr
  dsimp only
  have hle0 := amin_le_amax _ _ _ h0 h1
  have hle1 := amin_le_amax _ _ _ h2 h3
  constructor
  · exact ⟨linspaceList_length _ _ _,
      linspaceList_pairwise _ _ _ (by linarith) hn, mn0, mx0, h0, h1,
      linspaceList_head _ _ _ (by omega), linspaceList_getLast _ _ _ hn,
      linspaceList_mem_bounds _ _ _ (by linarith) hn⟩
  · exact ⟨linspaceList_length _ _ _,
      linspaceList_pairwise _ _ _ (by linarith) hn, mn1, mx1, h2, h3,
      linspaceList_head _ _ _ (by omega), linspaceList_getLast _ _ _ hn,
      linspaceList_mem_bounds _ _ _ (by linarith) hn⟩

unseal Rat.add Rat.mul Rat.inv Rat.sub in
theorem grid_axes_spec_witness :
    ([-1, 1] : List ℚ).length = (2 : ℤ).toNat ∧
    ([-1, 1] : List ℚ).Pairwise (· < ·) := by
  have hpdb : plot_decision_boundary (.r2 2 [[0, 0]]) (.r1 [0]) (fun _ => 0)
      "t" 2 = .ok ⟨[-1, 1], [-1, 1], [[0, 0], [0, 0]],
        [[[-1, -1]], [[-1, 1]], [[1, -1]], [[1, 1]]], [0], [0], [0], "t"⟩ := by
    decide
  have hc := grid_axes_spec (.r2 2 [[0, 0]]) (.r1 [0]) (fun _ => 0) "t" 2
    ⟨[-1, 1], [-1, 1], [[0, 0], [0, 0]],
      [[[-1, -1]], [[-1, 1]], [[1, -1]], [[1, 1]]], [0], [0], [0], "t"⟩
    hpdb (by omega)
  exact ⟨hc.1.1, hc.1.2.1⟩

/-- C4 (counterexample): the empty 0×2 feature matrix with the empty label
vector passes all four validation checks, yet the call aborts with the numpy
empty-reduction error instead of reaching the rendering hand-off. -/
theorem valid_pair_renders_cex :
    validationError (.r2 2 []) (.r1 []) = none ∧
    plot_decision_boundary (.r2 2 []) (.r1 []) (fun _ => 0)
      "Decision Boundary" 50 = .error msgEmptyMin := by
  decide

/-- C4 (amended): every pair passing the four validation checks whose
feature matrix has at least one row proceeds through grid construction and
prediction to the rendering hand-off without error, for every nonnegative
grid resolution. -/
theorem valid_nonempty_renders (X Y : NPArr) (rows : List (List ℚ))
    (p : Mat → ℚ) (t : String) (n : ℤ) (hv : validationError X Y = none)
    (hX : X = .r2 2 rows) (hne : rows ≠ []) (hn : 0 ≤ n) :
    ∃ r, plot_decision_boundary X Y p t n = .ok r := by
  subst hX
  obtain ⟨mn0, h0⟩ := amin_ok_of_ne_nil _ (col_ne_nil 2 rows 0 hne)
  obtain ⟨mx0, h1⟩ := amax_ok_of_ne_nil _ (col_ne_nil 2 rows 0 hne)
  obtain ⟨mn1, h2⟩ := amin_ok_of_ne_nil _ (col_ne_nil 2 rows 1 hne)
  obtain ⟨mx1, h3⟩ := amax_ok_of_ne_nil _ (col_ne_nil 2 rows 1 hne)
  exact ⟨_, pdb_eq_of_valid hv h0 h1 h2 h3 p t n hn⟩

theorem valid_nonempty_renders_witness :
    ∃ r, plot_decision_boundary (.r2 2 [[0, 0], [1, 1]]) (.r1 [0, 1])
      (fun _ => 0) "t" 3 = .ok r :=
  valid_nonempty_renders (.r2 2 [[0, 0], [1, 1]]) (.r1 [0, 1])
    [[0, 0], [1, 1]] (fun _ => 0) "t" 3 (by decide) rfl (by decide)
    (by decide)

/-- C6: two calls with identical arguments compute identical results; in
particular the grids of predicted values coincide. -/
theorem deterministic_grids (X Y : NPArr) (p : Mat → ℚ) (t : String) (n : ℤ)
    (r₁ r₂ : RenderData) (h₁ : plot_decision_boundary X Y p t n = .ok r₁)
    (h₂ : plot_decision_boundary X Y p t n = .ok r₂) :
    r₁.y_hat = r₂.y_hat ∧ r₁ = r₂ := by
  rw [h₁] at h₂
  have heq := Except.ok.inj h₂
  exact ⟨by rw [heq], heq⟩

unseal Rat.add Rat.mul Rat.inv Rat.sub in
theorem deterministic_grids_witness :
    (RenderData.mk [-1] [-1] [[0]] [[[-1, -1]]] [0] [0] [0] "t").y_hat =
      (RenderData.mk [-1] [-1] [[0]] [[[-1, -1]]] [0] [0] [0] "t").y_hat ∧
    RenderData.mk [-1] [-1] [[0]] [[[-1, -1]]] [0] [0] [0] "t" =
      RenderData.mk [-1] [-1] [[0]] [[[-1, -1]]] [0] [0] [0] "t" :=
  deterministic_grids (.r2 2 [[0, 0]]) (.r1 [0]) (fun _ => 0) "t" 1 _ _
    (by decide) (by decide)

unseal Rat.add Rat.mul Rat.inv Rat.sub in
/-- C7: on features `[[0,0],[1,1],[2,2],[3,3]]`, labels `[0,0,1,1]`, the
threshold predictor (1 when the first coordinate exceeds 3/2), and grid
resolution 4: the axes run from −1 to 4 on both coordinates, `predict` is
invoked 16 times, and every grid row equals `[0, 0, 1, 1]` — zero exactly in
the columns whose x-coordinate is at most 3/2. -/
theorem concrete_scenario :
    (plot_decision_boundary (.r2 2 [[0, 0], [1, 1], [2, 2], [3, 3]])
        (.r1 [0, 0, 1, 1])
        (fun m => if 3 / 2 < (m.getD 0 []).getD 0 0 then 1 else 0)
        "Decision Boundary" 4).map
      (fun r => (r.xx, r.yy, r.calls.length, r.y_hat)) =
    .ok ([-1, 2/3, 7/3, 4], [-1, 2/3, 7/3, 4], 16,
      [[0, 0, 1, 1], [0, 0, 1, 1], [0, 0, 1, 1], [0, 0, 1, 1]]) ∧
    ([-1, 2/3, 7/3, 4] : List ℚ).map
      (fun x => if x ≤ 3 / 2 then (0 : ℚ) else 1) = [0, 0, 1, 1] := by
  decide

/-- C8: the empty 0×2 feature matrix and empty label vector pass all four
validation checks (non-emptiness is not enforced); the call then reaches the
bounds computation, where the minimum of the empty feature column is the
partial numpy reduction, which fails — an error that is not one of the four
validation errors. -/
theorem empty_features_unguarded :
    validationError (.r2 2 []) (.r1 []) = none ∧
    col (.r2 2 []) 0 = [] ∧ col (.r2 2 []) 1 = [] ∧
    amin ([] : List ℚ) = .error msgEmptyMin ∧
    amax ([] : List ℚ) = .error msgEmptyMax ∧
    plot_decision_boundary (.r2 2 []) (.r1 []) (fun _ => 0) "t" 50 =
      .error msgEmptyMin ∧
    msgEmptyMin ∉ validationMsgs := by
  decide

/-- C10: the grid resolution is never validated — whatever its value, a call
whose inputs pass validation never produces one of the four validation
errors; and with resolution 0 the call succeeds with empty coordinate
sequences, an empty grid, and zero `predict` invocations. -/
theorem n_cells_unvalidated (X Y : NPArr) (rows : List (List ℚ))
    (p : Mat → ℚ) (t : String) (hv : validationError X Y = none)
    (hX : X = .r2 2 rows) (hne : rows ≠ []) :
    (∀ (n : ℤ) (e : String), plot_decision_boundary X Y p t n = .error e →
      e ∉ validationMsgs) ∧
    (∃ r, plot_decision_boundary X Y p t 0 = .ok r ∧
      r.xx = [] ∧ r.yy = [] ∧ r.y_hat = [] ∧ r.calls = []) := by
  constructor
  · intro n e he
    rcases pdb_error_of_valid hv he with h | h | h <;> subst h <;> decide
  · subst hX
    obtain ⟨mn0, h0⟩ := amin_ok_of_ne_nil _ (col_ne_nil 2 rows 0 hne)
    obtain ⟨mx0, h1⟩ := amax_ok_of_ne_nil _ (col_ne_nil 2 rows 0 hne)
    obtain ⟨mn1, h2⟩ := amin_ok_of_ne_nil _ (col_ne_nil 2 rows 1 hne)
    obtain ⟨mx1, h3⟩ := amax_ok_of_ne_nil _ (col_ne_nil 2 rows 1 hne)
    exact ⟨_, pdb_eq_of_valid hv h0 h1 h2 h3 p t 0 le_rfl, rfl, rfl, rfl, rfl⟩

theorem n_cells_unvalidated_witness :
    msgLinspace ∉ validationMsgs ∧
    (∃ r, plot_decision_boundary (.r2 2 [[0, 0]]) (.r1 [0]) (fun _ => 0)
      "t" 0 = .ok r ∧ r.xx = [] ∧ r.yy = [] ∧ r.y_hat = [] ∧ r.calls = []) := by
  have h := n_cells_unvalidated (.r2 2 [[0, 0]]) (.r1 [0]) [[0, 0]]
    (fun _ => 0) "t" (by decide) rfl (by decide)
  exact ⟨h.1 (-5) msgLinspace (by decide), h.2⟩
